import Mathlib

/-!
Verification of the compression-aware tag-management core of a gem5-derived
cache simulator: the set-associative tag store (`BaseSetAssoc`), the indexing
policy (`BaseIndexingPolicy`) and the `ReplaceableEntry` bookkeeping.

The definitions are shallow embeddings of the C++ sources:
  - `src/mem/cache/tags/base_set_assoc.cc` (`findCompressedDataReplacement`,
    constructor checks),
  - `src/mem/cache/tags/indexing_policies/base.cc` (`setEntry` in both its
    division-based and bit-mask-based variants, `getEntryData`,
    constructor checks),
  - `src/mem/cache/replacement_policies/replaceable_entry.hh`
    (`ReplaceableEntry` default constructor).

Machine integers are modelled as `Nat`/`Int`.  The C++ expression
`int extra_segments = (req_size + 63) / 64 - (max_set_segments - segments)`
mixes `size_t` and `unsigned`: the unsigned subtraction wraps modulo 2^64 and
the final truncation to 32-bit `int` recovers the mathematical value whenever
it fits in an `int`, which it does for every reachable configuration (segment
counts are bounded by associativity times the per-entry maximum), so the
quantity is modelled as a mathematical `Int`.
-/

namespace Gem5

/-- A cache block as seen by `BaseSetAssoc::findCompressedDataReplacement`:
identity within the set (`way`), validity, tag, secure bit, and the compressed
size `cSize` used for the segment arithmetic.  `cSize` is kept as `Nat`
following the spec data model (`compressedSize : uint`); the arithmetic
`(cSize + 63) / 64` is identical to the C++ integer arithmetic. -/
structure CacheBlk where
  way : Nat
  valid : Bool
  tag : Nat
  secure : Bool
  cSize : Nat
deriving DecidableEq, Repr

/-- Number of 64-unit segments needed for a size, the C++ `(x + 63) / 64`. -/
def segs (x : Nat) : Nat := (x + 63) / 64

/-- Modelled from the spec: `CacheBlk::matchTag` is declared outside the
provided sources; per the spec it is `(tag, secure)` equality. -/
def matchTag (b : CacheBlk) (tag : Nat) (sec : Bool) : Bool :=
  b.tag == tag && b.secure == sec

/-- State built by the per-block scan loop of `findCompressedDataReplacement`
(`base_set_assoc.cc` lines 139-158): the local variables `update_blk`,
`replacement`, `valid_blocks`, the output list `evicts` and the running
`segments` count. -/
structure ScanState where
  update_blk : Option CacheBlk
  replacement : Option CacheBlk
  valid_blocks : List CacheBlk
  evicts : List CacheBlk
  segments : Nat
deriving DecidableEq, Repr

/-- One iteration of the scan loop: a valid block matching the request with
`update_expansion` set becomes the update block (and current replacement);
any other valid block is appended to `valid_blocks` and contributes its
segment count; an invalid block becomes the current replacement and is
appended to `evicts`. -/
def scanStep (tag : Nat) (sec : Bool) (ue : Bool) (s : ScanState) (b : CacheBlk) :
    ScanState :=
  if b.valid then
    if matchTag b tag sec && ue then
      { s with update_blk := some b, replacement := some b }
    else
      { s with valid_blocks := s.valid_blocks ++ [b],
               segments := s.segments + segs b.cSize }
  else
    { s with replacement := some b, evicts := s.evicts ++ [b] }

/-- The scan-loop state before the loop runs. -/
def initScan : ScanState :=
  { update_blk := none, replacement := none, valid_blocks := [], evicts := [],
    segments := 0 }

/-- The whole scan loop over the set's blocks (in way order, as returned by
`getPossibleEntries`). -/
def scanSet (blocks : List CacheBlk) (tag : Nat) (sec : Bool) (ue : Bool) :
    ScanState :=
  List.foldl (scanStep tag sec ue) initScan blocks

/-- The C++ `extra_segments` computation (line 162), with
`max_set_segments = 32`. -/
def extraSegments (req_size : Nat) (segments : Nat) : Int :=
  (segs req_size : Int) - (32 - (segments : Int))

/-- Segment count of the block currently pointed to by `replacement`;
the `none` case never arises on the paths where the C++ dereferences the
pointer (the selection gate guarantees a non-null pointer there). -/
def optSegs : Option CacheBlk → Nat
  | some b => segs b.cSize
  | none => 0

/-- The filter building `large_blocks` (lines 174-182): valid blocks whose own
segment count covers the remaining shortfall and which are not the currently
selected replacement (pointer inequality; blocks of one set are distinct
objects, which the model reflects through their distinct `way` fields). -/
def largeBlocks (vb : List CacheBlk) (repl1 : Option CacheBlk) (extra1 : Int) :
    List CacheBlk :=
  vb.filter (fun b => decide (extra1 ≤ (segs b.cSize : Int) ∧ some b ≠ repl1))

/-- Result of `findCompressedDataReplacement`: the returned block, the
`evicts` output list, and — for reasoning about the replacement-policy
interaction — the list of candidate lists passed to `getVictim`, in call
order. -/
structure ReplResult where
  target : Option CacheBlk
  evicts : List CacheBlk
  calls : List (List CacheBlk)
deriving DecidableEq, Repr

/-- The selection phase of `BaseSetAssoc::findCompressedDataReplacement`
(`base_set_assoc.cc` lines 161-194), applied to the state left by the scan
loop.  The first conditional (line 165) consults the policy when
`extra_segments > 0` or no replacement has been selected, overwriting
`replacement` with the victim and appending it to `evicts`; the second
conditional (lines 173-189) consults it again over `large_blocks` when still
short.  The final dead update of `extra_segments` (line 191) has no observable
effect and is omitted.  The return value is `update_blk` when set, else
`replacement` (line 194). -/
def findFromScan (policy : List CacheBlk → CacheBlk) (s : ScanState)
    (req_size : Nat) : ReplResult :=
  let extra0 : Int := extraSegments req_size s.segments
  let repl1 : Option CacheBlk :=
    if 0 < extra0 ∨ s.replacement = none then some (policy s.valid_blocks)
    else s.replacement
  let ev1 : List CacheBlk :=
    if 0 < extra0 ∨ s.replacement = none then s.evicts ++ [policy s.valid_blocks]
    else s.evicts
  let c1 : List (List CacheBlk) :=
    if 0 < extra0 ∨ s.replacement = none then [s.valid_blocks] else []
  let extra1 : Int := extra0 - (optSegs repl1 : Int)
  let large := largeBlocks s.valid_blocks repl1 extra1
  let repl2 := if 0 < extra1 ∧ large ≠ [] then some (policy large) else repl1
  let ev2 := if 0 < extra1 ∧ large ≠ [] then ev1 ++ [policy large] else ev1
  let c2 := if 0 < extra1 ∧ large ≠ [] then c1 ++ [large] else c1
  { target := if s.update_blk.isSome then s.update_blk else repl2,
    evicts := ev2,
    calls := c2 }

/-- Shallow embedding of `BaseSetAssoc::findCompressedDataReplacement`
(`base_set_assoc.cc` lines 118-195): the scan loop over the set's blocks
followed by the selection phase.  The replacement policy's `getVictim` is a
function parameter. -/
def findCompressedDataReplacement (policy : List CacheBlk → CacheBlk)
    (blocks : List CacheBlk) (tag : Nat) (sec : Bool) (req_size : Nat)
    (ue : Bool) : ReplResult :=
  findFromScan policy (scanSet blocks tag sec ue) req_size

/-- Modelled from the spec: the stub replacement policy of the forced
multi-eviction scenario, "highest index first" — it returns the last element
of the candidate list, candidates being listed in way order.  On an empty
candidate list the C++ behaviour is undefined; the model returns a dummy
block, and every theorem that consults the policy guarantees a non-empty
candidate list. -/
def stubPolicy : List CacheBlk → CacheBlk
  | [] => { way := 0, valid := false, tag := 0, secure := false, cSize := 0 }
  | [b] => b
  | _ :: b :: l => stubPolicy (b :: l)

/-! ### Concrete scenarios -/

/-- Forced multi-eviction scenario, way 0: valid, non-matching, 20 segments. -/
def a0 : CacheBlk := { way := 0, valid := true, tag := 10, secure := false, cSize := 1280 }

/-- Forced multi-eviction scenario, way 1: valid, non-matching, 10 segments. -/
def a1 : CacheBlk := { way := 1, valid := true, tag := 11, secure := false, cSize := 640 }

/-- Forced multi-eviction scenario, way 2: valid, non-matching, 5 segments. -/
def a2 : CacheBlk := { way := 2, valid := true, tag := 12, secure := false, cSize := 320 }

/-- Forced multi-eviction scenario, way 3: the valid matched entry (tag 7). -/
def a3 : CacheBlk := { way := 3, valid := true, tag := 7, secure := false, cSize := 64 }

/-- The forced multi-eviction set: no free ways, ways 0-2 valid non-matching
with 20, 10 and 5 segments, way 3 the matched entry. -/
def aset : List CacheBlk := [a0, a1, a2, a3]

/-- Free-entry override scenario, way 0: invalid (free). -/
def f0 : CacheBlk := { way := 0, valid := false, tag := 0, secure := false, cSize := 0 }

/-- Free-entry override scenario, way 1: valid, non-matching, 20 segments. -/
def g1 : CacheBlk := { way := 1, valid := true, tag := 21, secure := false, cSize := 1280 }

/-- Free-entry override scenario, way 2: valid, non-matching, 10 segments. -/
def g2 : CacheBlk := { way := 2, valid := true, tag := 22, secure := false, cSize := 640 }

/-- Free-entry override scenario, way 3: valid, non-matching, 5 segments. -/
def g3 : CacheBlk := { way := 3, valid := true, tag := 23, secure := false, cSize := 320 }

/-- The free-entry override set: one free way and three residents whose
occupancy already exceeds the budget. -/
def gset : List CacheBlk := [f0, g1, g2, g3]

/-- Matched-entry-as-resident scenario: a valid entry matching tag 5. -/
def m0 : CacheBlk := { way := 0, valid := true, tag := 5, secure := false, cSize := 64 }

/-- Matched-entry-as-resident scenario: an invalid way. -/
def m1 : CacheBlk := { way := 1, valid := false, tag := 0, secure := false, cSize := 0 }

/-- The matched-entry-as-resident set. -/
def mset : List CacheBlk := [m0, m1]

/-! ### Characterization of the scan loop -/

/-- A block assigned to `update_blk` by the scan: valid, matching, with
`update_expansion` requested. -/
def isUpd (tag : Nat) (sec : Bool) (ue : Bool) (b : CacheBlk) : Bool :=
  b.valid && (matchTag b tag sec && ue)

/-- A block collected into `valid_blocks` by the scan: valid and not on the
update path. -/
def isResident (tag : Nat) (sec : Bool) (ue : Bool) (b : CacheBlk) : Bool :=
  b.valid && !(matchTag b tag sec && ue)

/-- An invalid block. -/
def notValid (b : CacheBlk) : Bool := !b.valid

/-- Total segment count of a list of blocks. -/
def sumSegs : List CacheBlk → Nat
  | [] => 0
  | b :: l => segs b.cSize + sumSegs l

/-- Last-assignment-wins accumulator: the value a pointer variable holds after
being assigned each element of the list in order, starting from `o`. -/
def lastUpd (o : Option CacheBlk) : List CacheBlk → Option CacheBlk
  | [] => o
  | b :: l => lastUpd (some b) l

lemma lastUpd_cons (o : Option CacheBlk) (b : CacheBlk) (l : List CacheBlk) :
    lastUpd o (b :: l) = lastUpd (some b) l := rfl

lemma lastUpd_some (l : List CacheBlk) : ∀ b, lastUpd (some b) l = some (l.getLast?.getD b) := by
  induction l with
  | nil => intro b; rfl
  | cons c l ih =>
      intro b
      rw [lastUpd_cons, ih c, List.getLast?_cons]
      rfl

lemma lastUpd_none (l : List CacheBlk) : lastUpd none l = l.getLast? := by
  cases l with
  | nil => rfl
  | cons a l => rw [lastUpd_cons, lastUpd_some, List.getLast?_cons]

lemma lastUpd_mem (l : List CacheBlk) :
    ∀ o x, lastUpd o l = some x → x ∈ l ∨ o = some x := by
  induction l with
  | nil => intro o x h; exact Or.inr h
  | cons b l ih =>
      intro o x h
      rcases ih (some b) x h with hm | he
      · exact Or.inl (List.mem_cons_of_mem _ hm)
      · exact Or.inl (by simp [← Option.some_inj.mp he])

lemma lastUpd_some_ne_none (l : List CacheBlk) : ∀ b, lastUpd (some b) l ≠ none := by
  intro b
  rw [lastUpd_some]
  exact Option.some_ne_none _

lemma lastUpd_eq_none (l : List CacheBlk) (h : lastUpd none l = none) : l = [] := by
  cases l with
  | nil => rfl
  | cons b l => exact absurd h (lastUpd_some_ne_none l b)

/-- Full characterization of the scan loop: `update_blk` is the last block on
the update path, `replacement` the last block that is invalid or on the update
path, `valid_blocks` the residents in way order, `evicts` the invalid blocks in
way order, and `segments` the residents' total segment count. -/
lemma scan_foldl (tag : Nat) (sec : Bool) (ue : Bool) :
    ∀ (blocks : List CacheBlk) (s : ScanState),
      List.foldl (scanStep tag sec ue) s blocks =
        { update_blk := lastUpd s.update_blk (blocks.filter (isUpd tag sec ue)),
          replacement :=
            lastUpd s.replacement (blocks.filter (fun b => !(isResident tag sec ue b))),
          valid_blocks := s.valid_blocks ++ blocks.filter (isResident tag sec ue),
          evicts := s.evicts ++ blocks.filter notValid,
          segments := s.segments + sumSegs (blocks.filter (isResident tag sec ue)) } := by
  intro blocks
  induction blocks with
  | nil =>
      intro s
      simp [lastUpd, sumSegs]
  | cons b bs ih =>
      intro s
      rw [List.foldl_cons, ih]
      cases hb : b.valid with
      | false =>
          simp [scanStep, isUpd, isResident, notValid, hb, lastUpd_cons, sumSegs,
            List.filter_cons]
      | true =>
          cases hm : matchTag b tag sec && ue with
          | false =>
              simp [scanStep, isUpd, isResident, notValid, hb, hm, lastUpd_cons,
                sumSegs, List.filter_cons]
              omega
          | true =>
              simp [scanStep, isUpd, isResident, notValid, hb, hm, lastUpd_cons,
                sumSegs, List.filter_cons]

/-- Closed form of `scanSet`. -/
lemma scanSet_eq (blocks : List CacheBlk) (tag : Nat) (sec : Bool) (ue : Bool) :
    scanSet blocks tag sec ue =
      { update_blk := lastUpd none (blocks.filter (isUpd tag sec ue)),
        replacement := lastUpd none (blocks.filter (fun b => !(isResident tag sec ue b))),
        valid_blocks := blocks.filter (isResident tag sec ue),
        evicts := blocks.filter notValid,
        segments := sumSegs (blocks.filter (isResident tag sec ue)) } := by
  have h := scan_foldl tag sec ue blocks initScan
  simpa [scanSet, initScan] using h

/-! ### Claims C1-C3 -/

/-- Claim C1, counterexample: in the forced multi-eviction scenario (4-way set,
no free ways, ways 0-2 valid non-matching needing 20, 10 and 5 segments,
request needing 3 segments, highest-index stub policy), the consultation
pattern described by the claim occurs — `getVictim` is called first over
`[a0, a1, a2]` and then over `[a0, a1]`, and `[a2, a1]` is evicted — but the
returned target is not way 1: the code returns `update_blk`, the matched way-3
entry, because the only way the set can have no free ways while way 3 is not
among the resident candidates is for way 3 to be the matched entry on the
update path. -/
theorem forced_multi_eviction_counterexample :
    (findCompressedDataReplacement stubPolicy aset 7 false 192 true).calls =
      [[a0, a1, a2], [a0, a1]] ∧
    (findCompressedDataReplacement stubPolicy aset 7 false 192 true).evicts = [a2, a1] ∧
    (findCompressedDataReplacement stubPolicy aset 7 false 192 true).target ≠ some a1 := by
  decide

/-- Claim C1, amended: in the forced multi-eviction scenario with way 3 the
matched entry and `updateExpansion` true (the only instantiation consistent
with the described consultations), the call returns target = way 3 — the
matched update entry, which the return statement prefers over the chosen
victims — and evicted = [way2, way1], with `getVictim` consulted twice: first
over the resident candidates `[a0, a1, a2]` (returning `a2`, 5 segments),
then, the shortfall still being 1, over `[a0, a1]`, the residents other than
the first victim whose own segment count is at least 1 (returning `a1`). -/
theorem forced_multi_eviction_update_target :
    (findCompressedDataReplacement stubPolicy aset 7 false 192 true).target = some a3 ∧
    (findCompressedDataReplacement stubPolicy aset 7 false 192 true).evicts = [a2, a1] ∧
    (findCompressedDataReplacement stubPolicy aset 7 false 192 true).calls =
      [[a0, a1, a2], [a0, a1]] := by
  decide

/-- Claim C2, counterexample: with `updateExpansion = false`, the valid entry
`m0` matching the request (tag 5, non-secure) is NOT separated into a
`matched` partition: it is placed in `valid_blocks` (the resident list passed
to `getVictim` — the single consultation receives `[m0]`) and it contributes
its `ceil(compressedSize/64) = 1` segment to the occupied count, contradicting
the claim's "regardless of the value of updateExpansion". -/
theorem matched_partition_counterexample :
    matchTag m0 5 false = true ∧ m0.valid = true ∧
    (scanSet mset 5 false false).valid_blocks = [m0] ∧
    (scanSet mset 5 false false).segments = 1 ∧
    (findCompressedDataReplacement stubPolicy mset 5 false 2048 false).calls = [[m0]] := by
  decide

/-- Claim C2, amended: the matched entry is separated from the residents only
when `updateExpansion` is true.  In general, `valid_blocks` (the resident list
passed to `getVictim`) consists exactly of the valid entries not satisfying
(matching ∧ updateExpansion), the occupied count is exactly the sum of their
`ceil(compressedSize/64)` contributions, and every invalid entry is appended
to the evicted list; with `updateExpansion` false a valid matching entry is
therefore treated as an ordinary resident. -/
theorem scan_partition_characterization (blocks : List CacheBlk) (tag : Nat)
    (sec : Bool) (ue : Bool) :
    (scanSet blocks tag sec ue).valid_blocks = blocks.filter (isResident tag sec ue) ∧
    (scanSet blocks tag sec ue).segments = sumSegs (blocks.filter (isResident tag sec ue)) ∧
    (scanSet blocks tag sec ue).evicts = blocks.filter notValid := by
  rw [scanSet_eq]
  exact ⟨rfl, rfl, rfl⟩

/-- Claim C3, counterexample: a free (invalid) entry `f0` is found in step 1
and selected as the replacement, yet because the shortfall is positive the
policy is still consulted and its victim `g3` overwrites the free entry: the
returned target is `g3`, not the free entry the claim says is "preferred and
remains the target". -/
theorem free_entry_override_counterexample :
    (scanSet gset 99 false false).replacement = some f0 ∧ f0.valid = false ∧
    (findCompressedDataReplacement stubPolicy gset 99 false 64 false).calls ≠ [] ∧
    (findCompressedDataReplacement stubPolicy gset 99 false 64 false).target = some g3 ∧
    g3 ≠ f0 := by
  decide

/-- Claim C3, amended: `getVictim` is consulted only when the shortfall is
positive or no replacement has been selected yet (conjunct 1: when the first
gate fails and the recomputed shortfall is not positive, no consultation
happens at all); when it is consulted, the selection is unconditionally set to
the returned victim — a free entry found in step 1 does not remain the target —
and the victim is appended to the evicted list (conjunct 2); only the matched
entry on the update path remains the returned target, because the return
statement prefers `update_blk` (conjuncts 2 and 3). -/
theorem victim_selection_characterization (policy : List CacheBlk → CacheBlk)
    (blocks : List CacheBlk) (tag : Nat) (sec : Bool) (req : Nat) (ue : Bool) :
    (¬(0 < extraSegments req (scanSet blocks tag sec ue).segments ∨
        (scanSet blocks tag sec ue).replacement = none) ∧
      ¬(0 < extraSegments req (scanSet blocks tag sec ue).segments -
          (optSegs (scanSet blocks tag sec ue).replacement : Int)) →
      (findCompressedDataReplacement policy blocks tag sec req ue).calls = []) ∧
    ((0 < extraSegments req (scanSet blocks tag sec ue).segments ∨
        (scanSet blocks tag sec ue).replacement = none) →
      (findCompressedDataReplacement policy blocks tag sec req ue).calls.head? =
        some (scanSet blocks tag sec ue).valid_blocks ∧
      policy (scanSet blocks tag sec ue).valid_blocks ∈
        (findCompressedDataReplacement policy blocks tag sec req ue).evicts ∧
      (¬(0 < extraSegments req (scanSet blocks tag sec ue).segments -
           (segs (policy (scanSet blocks tag sec ue).valid_blocks).cSize : Int)) →
        (findCompressedDataReplacement policy blocks tag sec req ue).target =
          if (scanSet blocks tag sec ue).update_blk.isSome
          then (scanSet blocks tag sec ue).update_blk
          else some (policy (scanSet blocks tag sec ue).valid_blocks))) ∧
    (∀ u, (scanSet blocks tag sec ue).update_blk = some u →
      (findCompressedDataReplacement policy blocks tag sec req ue).target = some u) := by
  refine ⟨?_, ?_, ?_⟩
  · rintro ⟨h1, h2⟩
    simp only [findCompressedDataReplacement, findFromScan, if_neg h1]
    have h2' : ¬(0 < extraSegments req (scanSet blocks tag sec ue).segments -
        (optSegs (scanSet blocks tag sec ue).replacement : Int) ∧
        largeBlocks (scanSet blocks tag sec ue).valid_blocks
          (scanSet blocks tag sec ue).replacement
          (extraSegments req (scanSet blocks tag sec ue).segments -
            (optSegs (scanSet blocks tag sec ue).replacement : Int)) ≠ []) := by
      intro h; exact h2 h.1
    rw [if_neg h2']
  · intro hg
    simp only [findCompressedDataReplacement, findFromScan, if_pos hg]
    refine ⟨?_, ?_, ?_⟩
    · split <;> rfl
    · split <;> simp
    · intro hstop
      have hf : ¬(0 < extraSegments req (scanSet blocks tag sec ue).segments -
          (optSegs (some (policy (scanSet blocks tag sec ue).valid_blocks)) : Int) ∧
          largeBlocks (scanSet blocks tag sec ue).valid_blocks
            (some (policy (scanSet blocks tag sec ue).valid_blocks))
            (extraSegments req (scanSet blocks tag sec ue).segments -
              (optSegs (some (policy (scanSet blocks tag sec ue).valid_blocks)) : Int)) ≠ []) := by
        intro h; exact hstop h.1
      rw [if_neg hf]
  · intro u hu
    simp [findCompressedDataReplacement, findFromScan, hu]

/-- Claim C3, witness for `victim_selection_characterization`: instantiated on
the forced multi-eviction scenario, where the first gate holds and the update
path is taken — the first consultation is over the resident candidates, the
victim is appended to the eviction list, and the matched entry is returned. -/
theorem victim_selection_characterization_witness :
    (findCompressedDataReplacement stubPolicy aset 7 false 192 true).calls.head? =
      some (scanSet aset 7 false true).valid_blocks ∧
    stubPolicy (scanSet aset 7 false true).valid_blocks ∈
      (findCompressedDataReplacement stubPolicy aset 7 false 192 true).evicts ∧
    (findCompressedDataReplacement stubPolicy aset 7 false 192 true).target = some a3 := by
  have h := victim_selection_characterization stubPolicy aset 7 false 192 true
  exact ⟨(h.2.1 (by decide)).1, (h.2.1 (by decide)).2.1, h.2.2 a3 (by decide)⟩

/-! ### Claim C4 -/

lemma stubPolicy_mem : ∀ (l : List CacheBlk), l ≠ [] → stubPolicy l ∈ l := by
  intro l
  induction l with
  | nil => intro h; exact absurd rfl h
  | cons b l ih =>
      intro _
      cases l with
      | nil => simp [stubPolicy]
      | cons c l =>
          have := ih (by simp)
          simp only [stubPolicy]
          exact List.mem_cons_of_mem _ this

lemma largeBlocks_subset (vb : List CacheBlk) (repl1 : Option CacheBlk)
    (extra1 : Int) : ∀ b ∈ largeBlocks vb repl1 extra1, b ∈ vb := by
  intro b hb
  exact (List.mem_filter.mp hb).1

/-- On the update path (with the update block outside `evicts` and
`valid_blocks`), the selection phase returns the update block and never evicts
it. -/
lemma findFromScan_update_path (policy : List CacheBlk → CacheBlk)
    (s : ScanState) (req : Nat)
    (hpol : ∀ l : List CacheBlk, l ≠ [] → policy l ∈ l)
    (hne : (0 < extraSegments req s.segments ∨ s.replacement = none) →
      s.valid_blocks ≠ [])
    (u : CacheBlk) (hu : s.update_blk = some u)
    (huev : u ∉ s.evicts) (huvb : u ∉ s.valid_blocks) :
    (findFromScan policy s req).target = some u ∧
    u ∉ (findFromScan policy s req).evicts := by
  constructor
  · simp [findFromScan, hu]
  · simp only [findFromScan]
    by_cases hc : 0 < extraSegments req s.segments ∨ s.replacement = none
    · have hv : policy s.valid_blocks ∈ s.valid_blocks := hpol _ (hne hc)
      rw [if_pos hc, if_pos hc]
      split
      · next hf =>
          have hv2 : policy (largeBlocks s.valid_blocks
              (some (policy s.valid_blocks))
              (extraSegments req s.segments -
                (optSegs (some (policy s.valid_blocks)) : Int))) ∈ s.valid_blocks :=
            largeBlocks_subset _ _ _ _ (hpol _ hf.2)
          simp only [List.mem_append, List.mem_singleton]
          rintro ((h | h) | h)
          · exact huev h
          · exact huvb (h ▸ hv)
          · exact huvb (h ▸ hv2)
      · simp only [List.mem_append, List.mem_singleton]
        rintro (h | h)
        · exact huev h
        · exact huvb (h ▸ hv)
    · rw [if_neg hc, if_neg hc]
      split
      · next hf =>
          have hv2 : policy (largeBlocks s.valid_blocks s.replacement
              (extraSegments req s.segments -
                (optSegs s.replacement : Int))) ∈ s.valid_blocks :=
            largeBlocks_subset _ _ _ _ (hpol _ hf.2)
          simp only [List.mem_append, List.mem_singleton]
          rintro (h | h)
          · exact huev h
          · exact huvb (h ▸ hv2)
      · exact huev

/-- Outside the update path (with the scanned replacement, if any, a member of
`evicts`), the selection phase always returns a block that is a member of the
returned eviction list. -/
lemma findFromScan_victim_path (policy : List CacheBlk → CacheBlk)
    (s : ScanState) (req : Nat)
    (hu : s.update_blk = none)
    (hrep : ∀ r, s.replacement = some r → r ∈ s.evicts) :
    ∃ t, (findFromScan policy s req).target = some t ∧
      t ∈ (findFromScan policy s req).evicts := by
  simp only [findFromScan, hu, Option.isSome_none, Bool.false_eq_true, if_false]
  by_cases hc : 0 < extraSegments req s.segments ∨ s.replacement = none
  · rw [if_pos hc, if_pos hc]
    split
    · exact ⟨_, rfl, by simp⟩
    · exact ⟨policy s.valid_blocks, rfl, by simp⟩
  · rw [if_neg hc, if_neg hc]
    push_neg at hc
    obtain ⟨r, hr⟩ := Option.ne_none_iff_exists'.mp hc.2
    have hrev : r ∈ s.evicts := hrep r hr
    rw [hr]
    split
    · exact ⟨_, rfl, by simp⟩
    · exact ⟨r, rfl, by simp [hrev]⟩

/-- Claim C4, counterexample: in the free-entry override scenario the returned
target `g3` is a valid (non-free) entry and IS a member of the returned
eviction list — every policy-chosen victim is appended to `evicts` and then
returned as the target, contradicting the claim that the target is in the
eviction list only when it is a reclaimed free entry. -/
theorem target_evicted_counterexample :
    (findCompressedDataReplacement stubPolicy gset 99 false 64 false).target = some g3 ∧
    g3 ∈ (findCompressedDataReplacement stubPolicy gset 99 false 64 false).evicts ∧
    g3.valid = true := by decide

/-- Claim C4, amended: the returned target is a member of the returned
eviction list exactly when the call does not take the update path: if a
matched entry with `updateExpansion` exists it is returned and is never in the
eviction list; otherwise the returned target — a reclaimed free entry or a
policy-chosen victim, both of which the code appends to `evicts` — is always a
member of the eviction list.  Hypotheses: the policy returns one of its
candidates, and the resident list is non-empty whenever the policy is
consulted (otherwise the C++ dereferences the policy's result on an empty
candidate list). -/
theorem target_membership_in_evicts (policy : List CacheBlk → CacheBlk)
    (blocks : List CacheBlk) (tag : Nat) (sec : Bool) (req : Nat) (ue : Bool)
    (hpol : ∀ l : List CacheBlk, l ≠ [] → policy l ∈ l)
    (hne : (0 < extraSegments req (scanSet blocks tag sec ue).segments ∨
        (scanSet blocks tag sec ue).replacement = none) →
      (scanSet blocks tag sec ue).valid_blocks ≠ []) :
    (∀ u, (scanSet blocks tag sec ue).update_blk = some u →
      (findCompressedDataReplacement policy blocks tag sec req ue).target = some u ∧
      u ∉ (findCompressedDataReplacement policy blocks tag sec req ue).evicts) ∧
    ((scanSet blocks tag sec ue).update_blk = none →
      ∃ t, (findCompressedDataReplacement policy blocks tag sec req ue).target = some t ∧
        t ∈ (findCompressedDataReplacement policy blocks tag sec req ue).evicts) := by
  have hS := scanSet_eq blocks tag sec ue
  constructor
  · intro u hu
    have humem : isUpd tag sec ue u = true := by
      rw [hS] at hu
      rcases lastUpd_mem _ _ _ hu with hm | hn
      · exact (List.mem_filter.mp hm).2
      · exact Option.noConfusion hn
    have huval : u.valid = true ∧ matchTag u tag sec = true ∧ ue = true := by
      simpa [isUpd, Bool.and_eq_true] using humem
    have huev : u ∉ (scanSet blocks tag sec ue).evicts := by
      rw [hS]
      intro hmem
      have := (List.mem_filter.mp hmem).2
      simp [notValid, huval.1] at this
    have huvb : u ∉ (scanSet blocks tag sec ue).valid_blocks := by
      rw [hS]
      intro hmem
      have := (List.mem_filter.mp hmem).2
      simp [isResident, huval.1, huval.2.1, huval.2.2] at this
    exact findFromScan_update_path policy _ req hpol hne u hu huev huvb
  · intro hu
    refine findFromScan_victim_path policy _ req hu ?_
    intro r hr
    have hrnotupd : ∀ b ∈ blocks, isUpd tag sec ue b = false := by
      rw [hS] at hu
      have hnil := lastUpd_eq_none _ hu
      intro b hb
      by_contra hbad
      have : b ∈ blocks.filter (isUpd tag sec ue) :=
        List.mem_filter.mpr ⟨hb, by simpa using hbad⟩
      rw [hnil] at this
      exact List.not_mem_nil b this
    have hrmem : r ∈ blocks.filter (fun b => !(isResident tag sec ue b)) := by
      rw [hS] at hr
      rcases lastUpd_mem _ _ _ hr with hm | hn
      · exact hm
      · exact Option.noConfusion hn
    have hrb : r ∈ blocks := (List.mem_filter.mp hrmem).1
    have hrres : isResident tag sec ue r = false := by
      have := (List.mem_filter.mp hrmem).2
      simpa using this
    have hrinv : r.valid = false := by
      cases hv : r.valid
      · rfl
      · exfalso
        have hupd := hrnotupd r hrb
        rw [isUpd, hv] at hupd
        rw [isResident, hv] at hrres
        simp only [Bool.true_and] at hupd hrres
        rw [hupd] at hrres
        simp at hrres
    rw [hS]
    exact List.mem_filter.mpr ⟨hrb, by simp [notValid, hrinv]⟩

/-- Claim C4, witness for `target_membership_in_evicts`: the amended claim
instantiated on the free-entry override scenario, where the call does not take
the update path and the returned target is indeed in the eviction list. -/
theorem target_membership_in_evicts_witness :
    ∃ t, (findCompressedDataReplacement stubPolicy gset 99 false 64 false).target = some t ∧
      t ∈ (findCompressedDataReplacement stubPolicy gset 99 false 64 false).evicts :=
  (target_membership_in_evicts stubPolicy gset 99 false 64 false stubPolicy_mem
    (fun _ => by decide)).2 (by decide)

/-! ### Claim C9 -/

lemma pairwise_le_getLast (l : List CacheBlk)
    (h : l.Pairwise (fun a b => a.way < b.way)) :
    ∀ b ∈ l, ∀ t, l.getLast? = some t → b.way ≤ t.way := by
  induction l with
  | nil => intro b hb; exact absurd hb (List.not_mem_nil b)
  | cons a l ih =>
      intro b hb t ht
      rcases List.pairwise_cons.mp h with ⟨ha, hl⟩
      cases l with
      | nil =>
          have hba : b = a := by simpa using hb
          have hta : a = t := by simpa using ht
          rw [hba, ← hta]
      | cons c l' =>
          rw [List.getLast?_cons_cons] at ht
          have htmem : t ∈ c :: l' := by
            have := lastUpd_mem (c :: l') none t (by rw [lastUpd_none]; exact ht)
            rcases this with hm | hn
            · exact hm
            · exact Option.noConfusion hn
          rcases List.mem_cons.mp hb with hba | hbl
          · exact le_of_lt (hba ▸ ha t htmem)
          · exact ih hl b hbl t ht

/-- Invalid-set scenario, way 0. -/
def i0 : CacheBlk := { way := 0, valid := false, tag := 0, secure := false, cSize := 0 }

/-- Invalid-set scenario, way 1. -/
def i1 : CacheBlk := { way := 1, valid := false, tag := 0, secure := false, cSize := 0 }

/-- Invalid-set scenario, way 2. -/
def i2 : CacheBlk := { way := 2, valid := false, tag := 0, secure := false, cSize := 0 }

/-- Invalid-set scenario, way 3. -/
def i3 : CacheBlk := { way := 3, valid := false, tag := 0, secure := false, cSize := 0 }

/-- A 4-way set whose entries are all invalid. -/
def iset : List CacheBlk := [i0, i1, i2, i3]

/-- Claim C9: on a set in which every entry is invalid, provided the request
needs at most 32 segments, `getVictim` is never consulted (for any policy),
the eviction list is exactly the set's entries in way order, and the returned
target is the set's last entry — the invalid entry with the highest way. -/
theorem all_invalid_set_no_victim_call (policy : List CacheBlk → CacheBlk)
    (blocks : List CacheBlk) (tag : Nat) (sec : Bool) (req : Nat) (ue : Bool)
    (hinv : ∀ b ∈ blocks, b.valid = false)
    (hne : blocks ≠ [])
    (hreq : segs req ≤ 32)
    (hways : blocks.Pairwise (fun a b => a.way < b.way)) :
    (findCompressedDataReplacement policy blocks tag sec req ue).calls = [] ∧
    (findCompressedDataReplacement policy blocks tag sec req ue).evicts = blocks ∧
    (findCompressedDataReplacement policy blocks tag sec req ue).target = blocks.getLast? ∧
    (∀ b ∈ blocks, ∀ t, blocks.getLast? = some t → b.way ≤ t.way) := by
  have hfilUpd : blocks.filter (isUpd tag sec ue) = [] :=
    List.filter_eq_nil_iff.mpr (fun b hb => by simp [isUpd, hinv b hb])
  have hfilRes : blocks.filter (isResident tag sec ue) = [] :=
    List.filter_eq_nil_iff.mpr (fun b hb => by simp [isResident, hinv b hb])
  have hfilInv : blocks.filter notValid = blocks :=
    List.filter_eq_self.mpr (fun b hb => by simp [notValid, hinv b hb])
  have hfilNotRes : blocks.filter (fun b => !(isResident tag sec ue b)) = blocks :=
    List.filter_eq_self.mpr (fun b hb => by simp [isResident, hinv b hb])
  have hscan : scanSet blocks tag sec ue =
      { update_blk := none, replacement := blocks.getLast?, valid_blocks := [],
        evicts := blocks, segments := 0 } := by
    rw [scanSet_eq, hfilUpd, hfilRes, hfilInv, hfilNotRes]
    simp only [lastUpd, lastUpd_none, sumSegs]
  obtain ⟨t0, ht0⟩ := Option.isSome_iff_exists.mp (List.getLast?_isSome.mpr hne)
  have hng : ¬(0 < extraSegments req (0 : Nat) ∨ blocks.getLast? = none) := by
    rintro (h | h)
    · unfold extraSegments at h
      simp only [Nat.cast_zero] at h
      omega
    · rw [ht0] at h
      exact Option.noConfusion h
  have hng2 : ¬(0 < extraSegments req (0 : Nat) - (optSegs blocks.getLast? : Int) ∧
      largeBlocks [] blocks.getLast?
        (extraSegments req (0 : Nat) - (optSegs blocks.getLast? : Int)) ≠ []) := by
    rintro ⟨h, -⟩
    unfold extraSegments at h
    simp only [Nat.cast_zero] at h
    have : (0 : Int) ≤ (optSegs blocks.getLast? : Int) := Int.ofNat_nonneg _
    omega
  have hfind : findCompressedDataReplacement policy blocks tag sec req ue =
      { target := blocks.getLast?, evicts := blocks, calls := [] } := by
    rw [findCompressedDataReplacement, hscan]
    simp only [findFromScan, if_neg hng, if_neg hng2]
    rfl
  rw [hfind]
  exact ⟨rfl, rfl, rfl, pairwise_le_getLast blocks hways⟩

/-- Claim C9, witness for `all_invalid_set_no_victim_call`: the all-invalid
4-way set with a request needing exactly 32 segments. -/
theorem all_invalid_set_no_victim_call_witness :
    (findCompressedDataReplacement stubPolicy iset 5 false 2048 false).calls = [] ∧
    (findCompressedDataReplacement stubPolicy iset 5 false 2048 false).evicts = iset ∧
    (findCompressedDataReplacement stubPolicy iset 5 false 2048 false).target =
      iset.getLast? := by
  have h := all_invalid_set_no_victim_call stubPolicy iset 5 false 2048 false
    (by decide) (by decide) (by decide) (by decide)
  exact ⟨h.1, h.2.1, h.2.2.1⟩

/-! ### Claim C5: segment budget -/

/-- Modelled from the spec: "The caller is responsible for actually writing
data and updating entry metadata after this call returns; the algorithm only
decides placement and eviction set" (§4.3).  The caller invalidates every
entry in the eviction list and installs the requested line in the target with
the requested size. -/
def applyDecision (blocks : List CacheBlk) (r : ReplResult) (tag : Nat)
    (sec : Bool) (req : Nat) : List CacheBlk :=
  blocks.map (fun b =>
    if some b = r.target then
      { b with valid := true, tag := tag, secure := sec, cSize := req }
    else if b ∈ r.evicts then { b with valid := false }
    else b)

/-- One full install: the decision of `findCompressedDataReplacement` (with
the highest-index stub policy, no update path), acted on by the caller. -/
def installOnce (blocks : List CacheBlk) (tag : Nat) (sec : Bool) (req : Nat) :
    List CacheBlk :=
  applyDecision blocks
    (findCompressedDataReplacement stubPolicy blocks tag sec req false) tag sec req

/-- Sum over the valid resident entries of `ceil(compressedSize/64)`. -/
def occupied (blocks : List CacheBlk) : Nat :=
  sumSegs (blocks.filter (fun b => b.valid))

/-- Budget scenario, step 1: install an 8-segment line in the empty set. -/
def budgetState1 : List CacheBlk := installOnce iset 20 false 512

/-- Budget scenario, step 2. -/
def budgetState2 : List CacheBlk := installOnce budgetState1 21 false 512

/-- Budget scenario, step 3. -/
def budgetState3 : List CacheBlk := installOnce budgetState2 22 false 512

/-- Budget scenario, step 4: the set is now full (32 segments). -/
def budgetState4 : List CacheBlk := installOnce budgetState3 23 false 512

/-- Budget scenario, step 5: a 32-segment request against the full set.  The
algorithm evicts a single 8-segment victim, finds no second victim with at
least 24 segments, and returns that victim as target anyway. -/
def budgetState5 : List CacheBlk := installOnce budgetState4 30 false 2048

/-- Claim C5, violation: starting from the all-invalid set, five installs —
each acting exactly on the decision returned by
`findCompressedDataReplacement` — leave the set at 56 occupied segments,
exceeding `MAX_SET_SEGMENTS = 32`: the algorithm evicts at most two resident
victims and never re-checks sufficiency, so its decision cannot maintain the
claimed budget invariant. -/
theorem segment_budget_violation :
    occupied iset = 0 ∧ occupied budgetState4 = 32 ∧
    occupied budgetState5 = 56 ∧ 32 < occupied budgetState5 := by decide

/-! ### Claims C6-C8: indexing policy -/

/-- An entry as handled by the indexing policy: an identity and the
(set, way) position recorded by `setPosition`. -/
structure IdxEntry where
  eid : Nat
  pset : Nat
  pway : Nat
deriving DecidableEq, Repr

/-- `ReplaceableEntry::setPosition` (replaceable_entry.hh lines 114-119). -/
def setPosition (e : IdxEntry) (s w : Nat) : IdxEntry :=
  { e with pset := s, pway := w }

/-- The division-based `BaseIndexingPolicy::setEntry` (base.cc lines 112-128):
`std::div` gives set = index / assoc and way = index % assoc; the entry is
stored at `sets[set][way]` and informed of its position. -/
def setEntryDiv (assoc : Nat) (sets : List (List (Option IdxEntry)))
    (e : IdxEntry) (idx : Nat) : List (List (Option IdxEntry)) :=
  let st := idx / assoc
  let wy := idx % assoc
  sets.set st ((sets.getD st []).set wy (some (setPosition e st wy)))

/-- The (set, way) pair computed by the division-based `setEntry`. -/
def divDecomp (assoc idx : Nat) : Nat × Nat := (idx / assoc, idx % assoc)

/-- The (set, way) pair computed by the second, bit-mask-based `setEntry` in
the same file (base.cc lines 130-137): set = index & setMask,
way = (index >> setShift) & (assoc - 1), with setMask = numSets - 1 and
setShift = floorLog2(entry_size) from the constructor. -/
def maskDecomp (setMask setShift assoc idx : Nat) : Nat × Nat :=
  (idx &&& setMask, (idx >>> setShift) &&& (assoc - 1))

/-- Lookup by (set, way): `sets[set][way]`. -/
def getEntry (sets : List (List (Option IdxEntry))) (s w : Nat) :
    Option IdxEntry :=
  (sets.getD s []).getD w none

/-- `BaseSetAssoc::tagsInit` restricted to the indexing-policy linkage:
entries with ids 0..n-1 are passed to the division-based `setEntry` at linear
indices 0..n-1, starting from an empty numSets × assoc table. -/
def tagsInitDiv (assoc numSets n : Nat) : List (List (Option IdxEntry)) :=
  List.foldl
    (fun st i => setEntryDiv assoc st { eid := i, pset := 0, pway := 0 } i)
    (List.replicate numSets (List.replicate assoc none)) (List.range n)

/-- Claim C6: with associativity 4, numSets 4 and entry_size 64 (so
setShift = 6, setMask = 3), the division-based `setEntry` satisfies the index
bijection — every linear index in [0, 16) is recoverable by (set, way) lookup
with set = index / 4 and way = index % 4 — but the second, bit-mask-based
`setEntry` in the same file decomposes linear index 5 as (set 1, way 0)
instead of (set 1, way 1): the division rule is not the single decomposition
rule in the source, whose two same-signature `setEntry` definitions contradict
each other. -/
theorem index_decomposition_conflict :
    ((List.range 16).all (fun idx =>
      getEntry (tagsInitDiv 4 4 16) (idx / 4) (idx % 4) ==
        some { eid := idx, pset := idx / 4, pway := idx % 4 }) = true) ∧
    divDecomp 4 5 = (1, 1) ∧ maskDecomp 3 6 4 5 = (1, 0) ∧
    maskDecomp 3 6 4 5 ≠ divDecomp 4 5 := by decide

/-- The error kinds of the fatal configuration checks. -/
inductive ConfigError where
  | notPow2NumSets
  | nonPosAssoc
  | missingIndexingPolicy
  | badBlockSize
deriving DecidableEq, Repr

/-- The power-of-two check (base.cc lines 180-183 and base/intmath.hh):
non-zero and no two bits set. -/
def isPowerOf2 (x : Nat) : Bool := x != 0 && (x &&& (x - 1)) == 0

/-- `floorLog2`, computed via base-2 logarithm (base.cc lines 186-189). -/
def floorLog2 (x : Nat) : Nat := Nat.log2 x

/-- The state established by a successful `BaseIndexingPolicy` construction. -/
structure IndexingPolicyState where
  assoc : Int
  numSets : Nat
  setShift : Nat
  tagShift : Nat
deriving DecidableEq, Repr

/-- `BaseIndexingPolicy::BaseIndexingPolicy` (base.cc lines 58-72): derives
`numSets = size / (entry_size * assoc)` in the initializer list, then aborts
(`fatal_if`, in this order) when numSets is not a power of two, or when
assoc ≤ 0.  A non-positive assoc makes the C++ divisor non-positive; the model
uses Nat division by `assoc.toNat`, which then yields numSets = 0 and fails
the power-of-two check, matching the fatal outcome. -/
def baseIndexingPolicyCtor (size entry_size : Nat) (assoc : Int) :
    Except ConfigError IndexingPolicyState :=
  let numSets := size / (entry_size * assoc.toNat)
  if isPowerOf2 numSets = false then .error .notPow2NumSets
  else if assoc ≤ 0 then .error .nonPosAssoc
  else .ok { assoc := assoc, numSets := numSets,
             setShift := floorLog2 entry_size,
             tagShift := floorLog2 entry_size + floorLog2 numSets }

/-- `BaseSetAssoc::BaseSetAssoc` (base_set_assoc.cc lines 55-67): aborts when
no indexing policy is supplied (`fatal_if`), or when the block size is below 4
or not a power of two (`fatal`). -/
def baseSetAssocCtor (hasIndexingPolicy : Bool) (blkSize : Nat) :
    Except ConfigError Unit :=
  if hasIndexingPolicy = false then .error .missingIndexingPolicy
  else if blkSize < 4 ∨ isPowerOf2 blkSize = false then .error .badBlockSize
  else .ok ()

/-- Claim C7: construction fails fatally exactly under the bad-configuration
conditions — the indexing policy succeeds iff the derived numSets is a power
of two and the associativity is positive, and the tag store succeeds iff an
indexing policy was supplied and the block size is at least 4 and a power of
two; in particular, with valid configuration both constructions succeed. -/
theorem construction_config_checks (size entry_size : Nat) (assoc : Int)
    (hip : Bool) (blkSize : Nat) :
    ((∃ st, baseIndexingPolicyCtor size entry_size assoc = .ok st) ↔
      (isPowerOf2 (size / (entry_size * assoc.toNat)) = true ∧ 0 < assoc)) ∧
    ((baseSetAssocCtor hip blkSize = .ok ()) ↔
      (hip = true ∧ 4 ≤ blkSize ∧ isPowerOf2 blkSize = true)) := by
  constructor
  · constructor
    · rintro ⟨st, hst⟩
      simp only [baseIndexingPolicyCtor] at hst
      split at hst
      · exact Except.noConfusion hst
      · split at hst
        · exact Except.noConfusion hst
        · next h1 h2 =>
            exact ⟨by simpa using h1, by omega⟩
    · rintro ⟨hp, hpos⟩
      simp only [baseIndexingPolicyCtor]
      rw [if_neg (by simp [hp]), if_neg (by omega)]
      exact ⟨_, rfl⟩
  · constructor
    · intro hst
      simp only [baseSetAssocCtor] at hst
      split at hst
      · exact Except.noConfusion hst
      · split at hst
        · exact Except.noConfusion hst
        · next h1 h2 =>
            push_neg at h2
            exact ⟨by simpa using h1, by omega, by simpa using h2.2⟩
    · rintro ⟨hh, hsz, hpow⟩
      simp only [baseSetAssocCtor]
      rw [if_neg (by simp [hh]),
        if_neg (by push_neg; exact ⟨by omega, by simp [hpow]⟩)]

/-- Claim C7, witness for `construction_config_checks`: a valid configuration
(size 1024, entry size 64, associativity 4, block size 64 with an indexing
policy) constructs successfully. -/
theorem construction_config_checks_witness :
    (∃ st, baseIndexingPolicyCtor 1024 64 4 = .ok st) ∧
    baseSetAssocCtor true 64 = .ok () := by
  have h := construction_config_checks 1024 64 4 true 64
  exact ⟨h.1.mpr ⟨by decide, by decide⟩, h.2.mpr ⟨rfl, by decide, by decide⟩⟩

/-- The possible outcomes of `getEntryData`: the two explicit exceptions, the
silent unchecked out-of-bounds vector access (undefined behaviour in the C++),
and an in-bounds result. -/
inductive GetDataResult where
  | outOfRangeError
  | nullEntryError
  | unchecked
  | result (e : Option IdxEntry)
deriving DecidableEq, Repr

/-- `BaseIndexingPolicy::getEntryData` (base.cc lines 80-110): explicit
out-of-range and null-entry exceptions, then
`return sets[set][dataStart, dataEnd];` — the comma operator discards
`dataStart`, so the C++ returns the element of the row at index `dataEnd`
(`dataEnd = segmentOffset*8 + cSize*8` when compressed, else
`segmentOffset*8 + 64`), with no bounds check on that access. -/
def getEntryData (sets : List (List (Option IdxEntry))) (set segOff : Nat)
    (cStatus : Bool) (cSize : Nat) : GetDataResult :=
  if sets.length ≤ set ∨ (sets.getD set []).length ≤ segOff then
    .outOfRangeError
  else if (sets.getD set []).getD segOff none = none then .nullEntryError
  else
    let dataStart := segOff * 8
    let dataEnd := if cStatus then dataStart + cSize * 8 else dataStart + 8 * 8
    if dataEnd < (sets.getD set []).length then
      .result ((sets.getD set []).getD dataEnd none)
    else .unchecked

/-- A one-set table whose row has 32 slots holding entries 0..31 — the shape
produced by the modified constructor, which resizes each row to
`numSegments`. -/
def demoRow32 : List (List (Option IdxEntry)) :=
  [(List.range 32).map (fun i => some { eid := i, pset := 0, pway := i })]

/-- Claim C8: on the valid, non-null index (set 0, segmentOffset 0,
cStatus true, cSize 1) over a 32-slot row, `getEntryData` returns the entry
stored at slot 8 of the row — an unrelated entry pointer, not any byte
sub-range of entry 0's backing data — and on a 4-slot row with cStatus false
it reaches an unchecked vector access at index 64 (silent undefined
behaviour), so the function neither implements the byte-sub-range contract nor
fails loudly on every bad access. -/
theorem get_entry_data_broken :
    getEntryData demoRow32 0 0 true 1 =
      .result (some { eid := 8, pset := 0, pway := 8 }) ∧
    getEntryData (tagsInitDiv 4 4 16) 0 0 false 0 = .unchecked := by decide

/-! ### Claim C10: ReplaceableEntry construction -/

/-- The fields of `ReplaceableEntry` that its constructor initializes
(replaceable_entry.hh lines 80-99): `cSize` (a uint8_t, values 0..255),
`cStatus`, and `coherenceState`; `_set` and `_way` are left uninitialized by
the constructor and are not modelled. -/
structure ReplaceableEntry where
  cSize : Nat
  cStatus : Bool
  coherenceState : Char
deriving DecidableEq, Repr

/-- `ReplaceableEntry::ReplaceableEntry()` (replaceable_entry.hh line 99):
`cSize(0), cStatus(false), coherenceState('I')`. -/
def mkReplaceableEntry : ReplaceableEntry :=
  { cSize := 0, cStatus := false, coherenceState := 'I' }

/-- Claim C10: a newly constructed `ReplaceableEntry` has compressed size 0,
is uncompressed, and its coherence state is Invalid ('I'), so immediately
after construction every entry satisfies the invariant that a not-yet-valid
entry's coherence state is Invalid. -/
theorem replaceable_entry_ctor_defaults :
    mkReplaceableEntry.cSize = 0 ∧ mkReplaceableEntry.cStatus = false ∧
    mkReplaceableEntry.coherenceState = 'I' := by decide

end Gem5
